import Mathlib

set_option maxRecDepth 40000

/-!
Shallow embedding of `telegram_perplexity_bot.py`: the conversation-history
bound policy, the retrying completion client with usage accounting, and the
output-truncation routine.  Python strings are modelled as `List Char`,
machine integers as `Nat`, and the dollar amounts (Python floats used only
additively) as exact rationals.
-/

namespace Alphy

/-- Roles of chat messages (`"system"`, `"user"`, `"assistant"` in the source). -/
inductive Role where
  | system
  | user
  | assistant
deriving DecidableEq, Repr

/-- A chat message dict `{"role": ..., "content": ...}`. -/
structure Msg where
  role : Role
  content : List Char
deriving DecidableEq, Repr

/-- `MAX_OUTPUT_TOKENS = 200` (source line 40). -/
def MAX_OUTPUT_TOKENS : Nat := 200

/-- `MAX_OUTPUT_LENGTH = 1000` (source line 41). -/
def MAX_OUTPUT_LENGTH : Nat := 1000

/-- `MAX_HISTORY_MESSAGES = 30` (source line 42). -/
def MAX_HISTORY_MESSAGES : Nat := 30

/-- `MAX_HISTORY_TOKENS_ESTIMATE = 3500` (source line 43). -/
def MAX_HISTORY_TOKENS_ESTIMATE : Nat := 3500

/-- `REQUEST_COST = 0.005` (source line 46), as an exact rational. -/
def REQUEST_COST : ℚ := 5 / 1000

/-- `TOKEN_COST_PER_MILLION = 1.0` (source line 47), as an exact rational. -/
def TOKEN_COST_PER_MILLION : ℚ := 1

/-- Default `max_retries=3` of `get_perplexity_response` (source line 122). -/
def MAX_RETRIES : Nat := 3

/-- `SYSTEM_PROMPT` (source lines 53-65). -/
def SYSTEM_PROMPT : List Char :=
  ("\nYou are Alphy, an AI assistant. Provide neutral, brief, and straightforward information.\nFocus on directly answering the user's request based on the provided context and conversation history.\nAvoid speculation, opinions, or unnecessary elaboration.\n\nDO NOT PROVIDE SEARCH RESULTS UNTILL YOURE ASKED TO DO SO.\n\nIMPORTANT FORMAT GUIDELINES:\n1. Keep answers extremely concise.\n2. Use basic Markdown formatting (**bold**, *italic*) sparingly for clarity only.\n3. Do not include citations.\n4. Avoid lists unless essential for clarity, keep them very short.\n").toList

/-- `SYSTEM_PROMPT_MESSAGE` (source line 66). -/
def SYSTEM_PROMPT_MESSAGE : Msg := { role := Role.system, content := SYSTEM_PROMPT }

/-- A user message as built on source line 234. -/
def mkUser (t : List Char) : Msg := { role := Role.user, content := t }

/-- An assistant message as built on source line 362. -/
def mkAssistant (t : List Char) : Msg := { role := Role.assistant, content := t }

/-- `estimate_tokens` (source lines 72-76): `sum(len(content)) // 4`. -/
def estimate_tokens (messages : List Msg) : Nat :=
  ((messages.map fun m => m.content.length).sum) / 4

/-- The history-bound policy of `handle_message` (source lines 233-269):
build the candidate `history + [user message]`; reset when its token estimate
exceeds the limit; otherwise trim by message count when over
`MAX_HISTORY_MESSAGES + 1` and reset when the trimmed estimate is still over;
otherwise commit.  Returns the committed history and the `wasReset` flag. -/
def appendAndBound (history : List Msg) (text : List Char) : List Msg × Bool :=
  let potential := history ++ [mkUser text]
  if MAX_HISTORY_TOKENS_ESTIMATE < estimate_tokens potential then
    ([SYSTEM_PROMPT_MESSAGE], true)
  else if MAX_HISTORY_MESSAGES + 1 < potential.length then
    let trimmed := potential.take 1 ++ potential.drop (potential.length - MAX_HISTORY_MESSAGES)
    if MAX_HISTORY_TOKENS_ESTIMATE < estimate_tokens trimmed then
      ([SYSTEM_PROMPT_MESSAGE], true)
    else (trimmed, false)
  else (potential, false)

/-- The truncation-notice suffix appended on source lines 214 and 217. -/
def TRUNCATION_SUFFIX : List Char :=
  "\n\n*[Response truncated due to length...]*".toList

/-- The break characters scanned on source line 211, in source order. -/
def BREAK_CHARS : List Char := ['.', '!', '?', '\n']

/-- Python `s.rfind(c)` restricted to found/not-found: index of the last
occurrence of `c` in `s`, or `none`. -/
def lastIdxOf : List Char → Char → Option Nat
  | [], _ => none
  | x :: xs, c =>
    match lastIdxOf xs c with
    | some i => some (i + 1)
    | none => if x = c then some 0 else none

/-- The scan of source lines 211-214: for each break character in order, if
its last occurrence in the length-limited text lies strictly past 70% of
`maxLength`, cut there.  Python compares `last_complete > max_length * 0.7`;
the threshold is modelled exactly as `7 * maxLength < 10 * i`. -/
def tryBreak (pre : List Char) (maxLength : Nat) : List Char → Option Nat
  | [] => none
  | c :: cs =>
    match lastIdxOf pre c with
    | some i => if 7 * maxLength < 10 * i then some i else tryBreak pre maxLength cs
    | none => tryBreak pre maxLength cs

/-- `truncate_text` (source lines 205-217). -/
def truncate_text (text : List Char) (maxLength : Nat) : List Char :=
  if text.length ≤ maxLength then text
  else
    match tryBreak (text.take maxLength) maxLength BREAK_CHARS with
    | some i => text.take (i + 1) ++ TRUNCATION_SUFFIX
    | none => text.take maxLength ++ TRUNCATION_SUFFIX

/-- The process-wide usage counters (source lines 48-50), with the dollar
amount as an exact rational. -/
structure Counters where
  total_requests : Nat
  total_tokens : Nat
  estimated_cost : ℚ
deriving DecidableEq, Repr

/-- The counters' initial values (source lines 48-50). -/
def counters0 : Counters := { total_requests := 0, total_tokens := 0, estimated_cost := 0 }

/-- The optional `usage` object of an API response; each field may be absent
(Python `result["usage"].get(..., 0)`). -/
structure Usage where
  prompt_tokens : Option Nat
  completion_tokens : Option Nat
deriving DecidableEq, Repr

/-- A parsed JSON response body: optional `usage`, and the extracted
`choices[0]["message"]["content"]` when present (`none` models the
`KeyError`/`IndexError` path of source line 198). -/
structure ApiResponse where
  usage : Option Usage
  content : Option (List Char)

/-- Outcome of one request attempt inside the retry loop: a parsed JSON
response, a `Timeout`, another `RequestException`, or an unexpected error. -/
inductive Outcome where
  | ok (r : ApiResponse)
  | timeout
  | reqError
  | otherError

/-- The statistics update of source lines 167-185, performed after a
successfully parsed JSON response. -/
def updateCounters (c : Counters) (usage : Option Usage) : Counters :=
  match usage with
  | some u =>
    let input_tokens := u.prompt_tokens.getD 0
    let output_tokens := u.completion_tokens.getD 0
    let token_cost : ℚ := ((input_tokens + output_tokens : Nat) : ℚ) / 1000000 * TOKEN_COST_PER_MILLION
    { total_requests := c.total_requests + 1,
      total_tokens := c.total_tokens + (input_tokens + output_tokens),
      estimated_cost := c.estimated_cost + (REQUEST_COST + token_cost) }
  | none =>
    { total_requests := c.total_requests + 1,
      total_tokens := c.total_tokens,
      estimated_cost := c.estimated_cost + REQUEST_COST }

/-- `"Sorry, the request timed out. Please try again later."` (source line 191). -/
def TIMEOUT_MSG : List Char :=
  "Sorry, the request timed out. Please try again later.".toList

/-- The `RequestException` fallback string (source line 197). -/
def REQUEST_ERROR_MSG : List Char :=
  "Sorry, I encountered an error when trying to process your request. Please try again later.".toList

/-- The response-parsing fallback string (source line 200). -/
def PARSE_ERROR_MSG : List Char :=
  "Sorry, I had trouble understanding the response. Please try again later.".toList

/-- The unexpected-error fallback string (source line 203). -/
def UNEXPECTED_ERROR_MSG : List Char :=
  "Sorry, an unexpected error occurred. Please try again later.".toList

/-- The guard string for an empty or system-only history (source line 138). -/
def NEED_MESSAGE_MSG : List Char :=
  "I need a message from you to respond!".toList

/-- The history-reset notice (source lines 262-264). -/
def RESET_NOTICE : List Char :=
  "⚠️ Conversation history became too long and has been reset. Please send your message again to continue.".toList

/-- The error-sentinel `"Sorry,"` checked on source line 361. -/
def SORRY_SENTINEL : List Char := "Sorry,".toList

/-- Python `s.startswith(pat)`. -/
def startsWith : List Char → List Char → Bool
  | _, [] => true
  | [], _ :: _ => false
  | c :: cs, p :: ps => c = p && startsWith cs ps

/-- The outcome of one call of the completion client: the returned string
(`none` models the implicit `return None` when the loop body never runs),
the number of attempts made, the backoff sleep durations performed
(`time.sleep(2 ** retry_count)`, source line 194), and the counters. -/
structure CallResult where
  reply : Option (List Char)
  attempts : Nat
  sleeps : List Nat
  counters : Counters
deriving Repr

/-- The `while retry_count < max_retries` loop of source lines 156-203,
structurally recursing on `remaining = max_retries - retry_count` and
carrying `retry_count` as `rc`.  The attempt outcomes are supplied by the
environment `oc`, indexed by `retry_count` at the time of the attempt. -/
def retryLoopAux (oc : Nat → Outcome) (c : Counters) : Nat → Nat → CallResult
  | 0, _ => { reply := none, attempts := 0, sleeps := [], counters := c }
  | remaining + 1, rc =>
    match oc rc with
    | Outcome.ok r =>
      let c' := updateCounters c r.usage
      match r.content with
      | some s => { reply := some s, attempts := 1, sleeps := [], counters := c' }
      | none => { reply := some PARSE_ERROR_MSG, attempts := 1, sleeps := [], counters := c' }
    | Outcome.reqError =>
      { reply := some REQUEST_ERROR_MSG, attempts := 1, sleeps := [], counters := c }
    | Outcome.otherError =>
      { reply := some UNEXPECTED_ERROR_MSG, attempts := 1, sleeps := [], counters := c }
    | Outcome.timeout =>
      match remaining with
      | 0 => { reply := some TIMEOUT_MSG, attempts := 1, sleeps := [], counters := c }
      | _ + 1 =>
        let rest := retryLoopAux oc c remaining (rc + 1)
        { reply := rest.reply, attempts := rest.attempts + 1,
          sleeps := 2 ^ (rc + 1) :: rest.sleeps, counters := rest.counters }

/-- `get_perplexity_response` (source lines 122-203): the system-only guard
of line 136, then the retry loop. -/
def get_perplexity_response (messages : List Msg) (oc : Nat → Outcome)
    (max_retries : Nat) (c : Counters) : CallResult :=
  if messages.length ≤ 1 then
    { reply := some NEED_MESSAGE_MSG, attempts := 0, sleeps := [], counters := c }
  else retryLoopAux oc c max_retries 0

/-- Observable result of one `handle_message` run (source lines 219-372):
the stored history, whether the bound check reset it, whether the local
pattern chain was evaluated, whether the remote API was called, whether an
assistant turn was appended, the generated reply, the text emitted to the
user, the backoff sleeps, and the counters. -/
structure HandleResult where
  stored : List Msg
  wasReset : Bool
  classified : Bool
  apiCalled : Bool
  assistantAppended : Bool
  reply : List Char
  sent : List Char
  sleeps : List Nat
  counters : Counters

/-- The tail of `handle_message` (source lines 359-372): append the reply as
an assistant turn unless it starts with the sentinel, then emit the
truncated reply. -/
def finishTurn (pre : List Msg) (response_text : List Char) (api : Bool)
    (sleeps : List Nat) (c : Counters) : HandleResult :=
  let app := !(startsWith response_text SORRY_SENTINEL)
  { stored := if app then pre ++ [mkAssistant response_text] else pre,
    wasReset := false, classified := true, apiCalled := api,
    assistantAppended := app, reply := response_text,
    sent := truncate_text response_text MAX_OUTPUT_LENGTH,
    sleeps := sleeps, counters := c }

/-- `handle_message` (source lines 219-372).  `stored` is the chat's
`chat_data['history']` entry (`none` when absent; `setdefault` seeds it).
The canned-reply elif chain of lines 277-352 depends only on the message
text; its outcome is supplied as `localReply` (`some` canned text when a
pattern group matches, `none` when the remote API must be used), and the
remote attempt outcomes as `oc`. -/
def handle_message (stored : Option (List Msg)) (text : List Char)
    (localReply : Option (List Char)) (oc : Nat → Outcome) (c : Counters) : HandleResult :=
  let history := stored.getD [SYSTEM_PROMPT_MESSAGE]
  let bound := appendAndBound history text
  if bound.2 then
    { stored := [SYSTEM_PROMPT_MESSAGE], wasReset := true, classified := false,
      apiCalled := false, assistantAppended := false, reply := [],
      sent := RESET_NOTICE, sleeps := [], counters := c }
  else
    match localReply with
    | some canned => finishTurn bound.1 canned false [] c
    | none =>
      let call := get_perplexity_response bound.1 oc MAX_RETRIES c
      finishTurn bound.1 (call.reply.getD []) true call.sleeps call.counters

/-- The operations that touch a chat's stored history: an inbound user
message (with its environment), and the `/start`, `/restart` and `/clear`
commands, which pop the history (source lines 82, 89, 94). -/
inductive Op where
  | user (text : List Char) (localReply : Option (List Char)) (oc : Nat → Outcome) (c : Counters)
  | startCmd
  | restartCmd
  | clearCmd

/-- Effect of one operation on the stored history (`none` = no
`'history'` key in `chat_data`). -/
def applyOp (stored : Option (List Msg)) : Op → Option (List Msg)
  | Op.user t lr oc c => some (handle_message stored t lr oc c).stored
  | Op.startCmd => none
  | Op.restartCmd => none
  | Op.clearCmd => none

/-- The spec's history invariant: entry 0 is the system message and no other
entry has the system role. -/
def SystemInv (h : List Msg) : Prop :=
  h.head? = some SYSTEM_PROMPT_MESSAGE ∧ ∀ m ∈ h.tail, m.role ≠ Role.system

/-- The invariant lifted to a possibly-absent stored history. -/
def OptInv : Option (List Msg) → Prop
  | none => True
  | some h => SystemInv h

/-- `c` has an occurrence in `pre` whose last index lies strictly past 70% of
`maxLength` — the cut condition of source line 213. -/
def qualifies (pre : List Char) (maxLength : Nat) (c : Char) : Prop :=
  ∃ i, lastIdxOf pre c = some i ∧ 7 * maxLength < 10 * i

instance (pre : List Char) (maxLength : Nat) (c : Char) : Decidable (qualifies pre maxLength c) :=
  match h : lastIdxOf pre c with
  | some i =>
    if hq : 7 * maxLength < 10 * i then
      Decidable.isTrue ⟨i, h, hq⟩
    else
      Decidable.isFalse (by
        rintro ⟨j, hj, hj2⟩
        rw [h] at hj
        cases hj
        exact hq hj2)
  | none =>
    Decidable.isFalse (by
      rintro ⟨j, hj, hj2⟩
      rw [h] at hj
      cases hj)

/-- Modelled from the claim wording for the truncation scan (spec §4.5 as
read by C7): cut after the break-character occurrence within
`text[:maxLength]` with the greatest index among those at or past 70% of
`maxLength`; hard-cut only when none qualifies.  Stated for comparison with
`truncate_text`, which is translated from the source. -/
def truncate_spec_greatest (text : List Char) (maxLength : Nat) : List Char :=
  if text.length ≤ maxLength then text
  else
    let pre := text.take maxLength
    let qual := (List.range pre.length).filter
      (fun i => decide (7 * maxLength ≤ 10 * i) && decide (pre.getD i ' ' ∈ BREAK_CHARS))
    match qual.getLast? with
    | some b => text.take (b + 1) ++ TRUNCATION_SUFFIX
    | none => text.take maxLength ++ TRUNCATION_SUFFIX

lemma lastIdxOf_lt_length {l : List Char} {c : Char} {i : Nat}
    (h : lastIdxOf l c = some i) : i < l.length := by
  induction l generalizing i with
  | nil => simp [lastIdxOf] at h
  | cons x xs ih =>
    rw [lastIdxOf] at h
    cases hx : lastIdxOf xs c with
    | some j =>
      rw [hx] at h
      cases h
      have := ih hx
      simp only [List.length_cons]
      omega
    | none =>
      rw [hx] at h
      by_cases he : x = c
      · simp [he] at h
        cases h
        simp
      · simp [he] at h

lemma tryBreak_cons_found {pre : List Char} {m : Nat} {c : Char} {cs : List Char} {i : Nat}
    (h : lastIdxOf pre c = some i) (hq : 7 * m < 10 * i) :
    tryBreak pre m (c :: cs) = some i := by
  rw [tryBreak, h]
  simp [hq]

lemma tryBreak_cons_skip {pre : List Char} {m : Nat} {c : Char} {cs : List Char}
    (h : ¬ qualifies pre m c) :
    tryBreak pre m (c :: cs) = tryBreak pre m cs := by
  rw [tryBreak]
  cases hx : lastIdxOf pre c with
  | some j =>
    have hnq : ¬ 7 * m < 10 * j := fun hq => h ⟨j, hx, hq⟩
    simp [hnq]
  | none => rfl

lemma tryBreak_none_of {pre : List Char} {m : Nat} :
    ∀ cl : List Char, (∀ c ∈ cl, ¬ qualifies pre m c) → tryBreak pre m cl = none := by
  intro cl
  induction cl with
  | nil => intro _; rfl
  | cons c cs ih =>
    intro hall
    rw [tryBreak_cons_skip (hall c (by simp))]
    exact ih fun d hd => hall d (by simp [hd])

lemma tryBreak_some {pre : List Char} {m : Nat} {i : Nat} :
    ∀ cl : List Char, tryBreak pre m cl = some i →
      ∃ c ∈ cl, lastIdxOf pre c = some i ∧ 7 * m < 10 * i := by
  intro cl
  induction cl with
  | nil => intro h; simp [tryBreak] at h
  | cons c cs ih =>
    intro h
    rw [tryBreak] at h
    cases hx : lastIdxOf pre c with
    | some j =>
      rw [hx] at h
      by_cases hq : 7 * m < 10 * j
      · simp only [hq, if_true] at h
        cases h
        exact ⟨c, by simp, hx, hq⟩
      · simp only [hq, if_false] at h
        obtain ⟨d, hd, hrest⟩ := ih h
        exact ⟨d, by simp [hd], hrest⟩
    | none =>
      rw [hx] at h
      obtain ⟨d, hd, hrest⟩ := ih h
      exact ⟨d, by simp [hd], hrest⟩

lemma truncate_text_hard {text : List Char} {maxLength : Nat}
    (hlen : maxLength < text.length)
    (hq : ∀ c ∈ BREAK_CHARS, ¬ qualifies (text.take maxLength) maxLength c) :
    truncate_text text maxLength = text.take maxLength ++ TRUNCATION_SUFFIX := by
  rw [truncate_text, if_neg (by omega), tryBreak_none_of BREAK_CHARS hq]

lemma truncate_text_break {text : List Char} {maxLength i : Nat}
    (hlen : maxLength < text.length)
    (ht : tryBreak (text.take maxLength) maxLength BREAK_CHARS = some i) :
    truncate_text text maxLength = text.take (i + 1) ++ TRUNCATION_SUFFIX := by
  rw [truncate_text, if_neg (by omega), ht]

lemma breakChars_expand : BREAK_CHARS = '.' :: '!' :: '?' :: '\n' :: [] := rfl

/-- C7 (amended): for over-long text the scan walks the break characters in
the fixed source order `'.', '!', '?', newline` and cuts at the last
occurrence of the FIRST character in that order whose last occurrence lies
strictly past 70% of `maxLength`; a later break character with a greater
index does not win, and the hard cut happens exactly when no character in
the list qualifies. -/
theorem truncate_scan_order (text : List Char) (maxLength : Nat)
    (hlen : maxLength < text.length) :
    (∀ i, lastIdxOf (text.take maxLength) '.' = some i → 7 * maxLength < 10 * i →
      truncate_text text maxLength = text.take (i + 1) ++ TRUNCATION_SUFFIX)
    ∧ (¬ qualifies (text.take maxLength) maxLength '.' →
       ∀ i, lastIdxOf (text.take maxLength) '!' = some i → 7 * maxLength < 10 * i →
      truncate_text text maxLength = text.take (i + 1) ++ TRUNCATION_SUFFIX)
    ∧ (¬ qualifies (text.take maxLength) maxLength '.' →
       ¬ qualifies (text.take maxLength) maxLength '!' →
       ∀ i, lastIdxOf (text.take maxLength) '?' = some i → 7 * maxLength < 10 * i →
      truncate_text text maxLength = text.take (i + 1) ++ TRUNCATION_SUFFIX)
    ∧ (¬ qualifies (text.take maxLength) maxLength '.' →
       ¬ qualifies (text.take maxLength) maxLength '!' →
       ¬ qualifies (text.take maxLength) maxLength '?' →
       ∀ i, lastIdxOf (text.take maxLength) '\n' = some i → 7 * maxLength < 10 * i →
      truncate_text text maxLength = text.take (i + 1) ++ TRUNCATION_SUFFIX)
    ∧ ((∀ c ∈ BREAK_CHARS, ¬ qualifies (text.take maxLength) maxLength c) →
      truncate_text text maxLength = text.take maxLength ++ TRUNCATION_SUFFIX) := by
  refine ⟨?_, ?_, ?_, ?_, ?_⟩
  · intro i hx hq
    exact truncate_text_break hlen (by
      rw [breakChars_expand]
      exact tryBreak_cons_found hx hq)
  · intro h1 i hx hq
    exact truncate_text_break hlen (by
      rw [breakChars_expand, tryBreak_cons_skip h1]
      exact tryBreak_cons_found hx hq)
  · intro h1 h2 i hx hq
    exact truncate_text_break hlen (by
      rw [breakChars_expand, tryBreak_cons_skip h1, tryBreak_cons_skip h2]
      exact tryBreak_cons_found hx hq)
  · intro h1 h2 h3 i hx hq
    exact truncate_text_break hlen (by
      rw [breakChars_expand, tryBreak_cons_skip h1, tryBreak_cons_skip h2, tryBreak_cons_skip h3]
      exact tryBreak_cons_found hx hq)
  · intro hall
    exact truncate_text_hard hlen hall

/-- C7 counterexample: on `"aaaaaaaa.!x"` with `maxLength = 10` the source
cuts at the period (index 8, the first qualifying character in scan order)
while the claimed greatest-qualifying-index rule would cut at the
exclamation mark (index 9). -/
theorem truncate_scan_order_ce :
    truncate_text ("aaaaaaaa.!x".toList) 10 = ("aaaaaaaa.".toList) ++ TRUNCATION_SUFFIX
    ∧ truncate_spec_greatest ("aaaaaaaa.!x".toList) 10 = ("aaaaaaaa.!".toList) ++ TRUNCATION_SUFFIX
    ∧ truncate_text ("aaaaaaaa.!x".toList) 10 ≠ truncate_spec_greatest ("aaaaaaaa.!x".toList) 10 := by
  exact ⟨by decide, by decide, by decide⟩

/-- C7 witness: the period branch of `truncate_scan_order` evaluated on a
concrete input. -/
theorem truncate_scan_order_witness :
    10 < ("bbbbbbbb.!x".toList).length
    ∧ lastIdxOf (("bbbbbbbb.!x".toList).take 10) '.' = some 8
    ∧ 7 * 10 < 10 * 8
    ∧ truncate_text ("bbbbbbbb.!x".toList) 10 = ("bbbbbbbb.!x".toList).take (8 + 1) ++ TRUNCATION_SUFFIX :=
  ⟨by decide, by decide, by decide,
    (truncate_scan_order ("bbbbbbbb.!x".toList) 10 (by decide)).1 8 (by decide) (by decide)⟩

lemma lastIdxOf_replicate {a c : Char} (h : a ≠ c) :
    ∀ n, lastIdxOf (List.replicate n a) c = none := by
  intro n
  induction n with
  | zero => rfl
  | succ n ih =>
    rw [List.replicate_succ, lastIdxOf, ih]
    simp [h]

/-- C8 (amended): when the last period within `text[:N]` lies strictly past
`0.7·N` (rather than merely "before `0.75·N`") and no other break character
occurs, truncation ends at that period plus the suffix; the result has
length `p + 1 + 41`, which is bounded by `N + 41` but can exceed the
original length. -/
theorem truncate_period (text : List Char) (N p : Nat)
    (hlen : N < text.length)
    (hp : lastIdxOf (text.take N) '.' = some p)
    (hq : 7 * N < 10 * p)
    (_hb1 : '!' ∉ text) (_hb2 : '?' ∉ text) (_hb3 : '\n' ∉ text) :
    truncate_text text N = text.take (p + 1) ++ TRUNCATION_SUFFIX
    ∧ (truncate_text text N).length = p + 1 + 41
    ∧ (truncate_text text N).length ≤ N + 41 := by
  have hcut : truncate_text text N = text.take (p + 1) ++ TRUNCATION_SUFFIX :=
    (truncate_scan_order text N hlen).1 p hp hq
  have hpN : p < N := by
    have := lastIdxOf_lt_length hp
    rw [List.length_take] at this
    omega
  have hlength : (truncate_text text N).length = p + 1 + 41 := by
    rw [hcut, List.length_append, List.length_take]
    have : TRUNCATION_SUFFIX.length = 41 := by decide
    omega
  exact ⟨hcut, hlength, by omega⟩

/-- C8 counterexample: `"aa.aaaaaaaa"` with `N = 10` has its only period at
index 2, before `0.75 × 10`, and no other break character, yet the source
hard-cuts at index 10 instead of ending at the period, and the result
(length 51) is longer than the original text (length 11). -/
theorem truncate_period_ce :
    ("aa.aaaaaaaa".toList).length = 11
    ∧ truncate_text ("aa.aaaaaaaa".toList) 10 = ("aa.aaaaaaa".toList) ++ TRUNCATION_SUFFIX
    ∧ truncate_text ("aa.aaaaaaaa".toList) 10 ≠ ("aa.".toList) ++ TRUNCATION_SUFFIX
    ∧ ("aa.aaaaaaaa".toList).length < (truncate_text ("aa.aaaaaaaa".toList) 10).length := by
  exact ⟨by decide, by decide, by decide, by decide⟩

/-- C8 witness: `truncate_period` evaluated on a concrete input with the
qualifying period at index 8. -/
theorem truncate_period_witness :
    10 < ("aaaaaaaa.bb".toList).length
    ∧ lastIdxOf (("aaaaaaaa.bb".toList).take 10) '.' = some 8
    ∧ 7 * 10 < 10 * 8
    ∧ truncate_text ("aaaaaaaa.bb".toList) 10 = ("aaaaaaaa.bb".toList).take (8 + 1) ++ TRUNCATION_SUFFIX
    ∧ (truncate_text ("aaaaaaaa.bb".toList) 10).length = 8 + 1 + 41 :=
  ⟨by decide, by decide, by decide,
    (truncate_period ("aaaaaaaa.bb".toList) 10 8 (by decide) (by decide) (by decide)
      (by decide) (by decide) (by decide)).1,
    (truncate_period ("aaaaaaaa.bb".toList) 10 8 (by decide) (by decide) (by decide)
      (by decide) (by decide) (by decide)).2.1⟩

/-- C10: the truncated text never exceeds `maxLength` plus the 41-character
suffix; on the hard-cut path it is exactly `maxLength + 41`, so the emitted
reply can exceed `maxLength` (in particular `MAX_OUTPUT_LENGTH`) even though
truncation was applied. -/
theorem truncate_length_bound (text : List Char) (maxLength : Nat) :
    (truncate_text text maxLength).length ≤ maxLength + TRUNCATION_SUFFIX.length
    ∧ TRUNCATION_SUFFIX.length = 41
    ∧ (maxLength < text.length →
       (∀ c ∈ BREAK_CHARS, ¬ qualifies (text.take maxLength) maxLength c) →
       (truncate_text text maxLength).length = maxLength + 41)
    ∧ (∃ t : List Char, MAX_OUTPUT_LENGTH < (truncate_text t MAX_OUTPUT_LENGTH).length) := by
  have hsuf : TRUNCATION_SUFFIX.length = 41 := by decide
  refine ⟨?_, hsuf, ?_, ?_⟩
  · by_cases hle : text.length ≤ maxLength
    · rw [truncate_text, if_pos hle]
      omega
    · push_neg at hle
      cases ht : tryBreak (text.take maxLength) maxLength BREAK_CHARS with
      | some i =>
        rw [truncate_text_break hle ht, List.length_append, List.length_take]
        obtain ⟨c, _, hx, _⟩ := tryBreak_some BREAK_CHARS ht
        have := lastIdxOf_lt_length hx
        rw [List.length_take] at this
        omega
      | none =>
        rw [truncate_text, if_neg (by omega), ht, List.length_append, List.length_take]
        omega
  · intro hlt hall
    rw [truncate_text_hard hlt hall, List.length_append, List.length_take]
    omega
  · refine ⟨List.replicate (MAX_OUTPUT_LENGTH + 1) 'a', ?_⟩
    have hlt : MAX_OUTPUT_LENGTH < (List.replicate (MAX_OUTPUT_LENGTH + 1) 'a').length := by
      simp
    have hne : ∀ c ∈ BREAK_CHARS, 'a' ≠ c := by decide
    have hnone : ∀ c ∈ BREAK_CHARS,
        ¬ qualifies ((List.replicate (MAX_OUTPUT_LENGTH + 1) 'a').take MAX_OUTPUT_LENGTH)
          MAX_OUTPUT_LENGTH c := by
      intro c hc
      rintro ⟨i, hi, _⟩
      have hrep : (List.replicate (MAX_OUTPUT_LENGTH + 1) 'a').take MAX_OUTPUT_LENGTH
          = List.replicate MAX_OUTPUT_LENGTH 'a' := by
        rw [List.take_replicate, Nat.min_def]
        simp
      rw [hrep, lastIdxOf_replicate (hne c hc)] at hi
      cases hi
    rw [truncate_text_hard hlt hnone, List.length_append, List.length_take]
    omega

/-- C10 witness: the hard-cut branch of `truncate_length_bound` evaluated on
a concrete break-free input. -/
theorem truncate_length_bound_witness :
    10 < (List.replicate 11 'a').length
    ∧ (∀ c ∈ BREAK_CHARS, ¬ qualifies ((List.replicate 11 'a').take 10) 10 c)
    ∧ (truncate_text (List.replicate 11 'a') 10).length = 10 + 41 :=
  ⟨by decide, by decide,
    (truncate_length_bound (List.replicate 11 'a') 10).2.2.1 (by decide) (by decide)⟩

lemma sysPromptLen : SYSTEM_PROMPT.length = 553 := by rfl

lemma estimate_big :
    estimate_tokens ([SYSTEM_PROMPT_MESSAGE] ++ [mkUser (List.replicate 15000 'a')]) = 3888 := by
  simp only [estimate_tokens, List.cons_append, List.nil_append, List.map_cons, List.map_nil,
    List.sum_cons, List.sum_nil, mkUser, SYSTEM_PROMPT_MESSAGE, List.length_replicate, sysPromptLen]
  norm_num

lemma bigReset :
    appendAndBound [SYSTEM_PROMPT_MESSAGE] (List.replicate 15000 'a')
      = ([SYSTEM_PROMPT_MESSAGE], true) := by
  have e1 : MAX_HISTORY_TOKENS_ESTIMATE
      < estimate_tokens ([SYSTEM_PROMPT_MESSAGE] ++ [mkUser (List.replicate 15000 'a')]) := by
    rw [estimate_big]
    norm_num [MAX_HISTORY_TOKENS_ESTIMATE]
  simp only [appendAndBound]
  rw [if_pos e1]

lemma appendAndBound_ceiling (h : List Msg) (u : List Char)
    (hlen : h.length = MAX_HISTORY_MESSAGES + 1)
    (hhead : h.head? = some SYSTEM_PROMPT_MESSAGE)
    (htok : estimate_tokens (h ++ [mkUser u]) ≤ MAX_HISTORY_TOKENS_ESTIMATE)
    (htrim : estimate_tokens (SYSTEM_PROMPT_MESSAGE :: (h ++ [mkUser u]).drop 2)
      ≤ MAX_HISTORY_TOKENS_ESTIMATE) :
    appendAndBound h u = (SYSTEM_PROMPT_MESSAGE :: (h ++ [mkUser u]).drop 2, false) := by
  cases h with
  | nil => simp at hlen
  | cons a t =>
    have ha : a = SYSTEM_PROMPT_MESSAGE := by simpa using hhead
    subst ha
    have ht30 : t.length + 1 = MAX_HISTORY_MESSAGES + 1 := by simpa using hlen
    have e1 : ¬ (MAX_HISTORY_TOKENS_ESTIMATE
        < estimate_tokens ((SYSTEM_PROMPT_MESSAGE :: t) ++ [mkUser u])) := Nat.not_lt.mpr htok
    have e2 : MAX_HISTORY_MESSAGES + 1 < ((SYSTEM_PROMPT_MESSAGE :: t) ++ [mkUser u]).length := by
      simp only [List.length_append, List.length_cons, List.length_nil]
      omega
    have e4 : ((SYSTEM_PROMPT_MESSAGE :: t) ++ [mkUser u]).length - MAX_HISTORY_MESSAGES = 2 := by
      simp only [List.length_append, List.length_cons, List.length_nil]
      omega
    have e3 : ¬ (MAX_HISTORY_TOKENS_ESTIMATE
        < estimate_tokens (((SYSTEM_PROMPT_MESSAGE :: t) ++ [mkUser u]).take 1 ++
            ((SYSTEM_PROMPT_MESSAGE :: t) ++ [mkUser u]).drop
              (((SYSTEM_PROMPT_MESSAGE :: t) ++ [mkUser u]).length - MAX_HISTORY_MESSAGES))) := by
      rw [e4]
      exact Nat.not_lt.mpr (by simpa using htrim)
    simp only [appendAndBound]
    rw [if_neg e1, if_pos e2, if_neg e3, e4]
    simp

lemma appendAndBound_ceiling_shape (h : List Msg) (u : List Char)
    (hlen : h.length = MAX_HISTORY_MESSAGES + 1)
    (hhead : h.head? = some SYSTEM_PROMPT_MESSAGE)
    (htok : estimate_tokens (h ++ [mkUser u]) ≤ MAX_HISTORY_TOKENS_ESTIMATE)
    (htrim : estimate_tokens (SYSTEM_PROMPT_MESSAGE :: (h ++ [mkUser u]).drop 2)
      ≤ MAX_HISTORY_TOKENS_ESTIMATE) :
    (appendAndBound h u).1.length = MAX_HISTORY_MESSAGES + 1
    ∧ (appendAndBound h u).1.head? = some SYSTEM_PROMPT_MESSAGE := by
  rw [appendAndBound_ceiling h u hlen hhead htok htrim]
  constructor
  · simp only [List.length_cons, List.length_drop, List.length_append,
      List.length_nil, hlen]
    omega
  · rfl

/-- C1: at the message-count ceiling (stored history of `MAX_HISTORY_MESSAGES + 1`
entries headed by the system message) an append whose candidate stays within
the token limit, also after trimming, commits exactly the system entry
followed by the last `MAX_HISTORY_MESSAGES` entries of the candidate (the
candidate has 32 entries, so those are `(h ++ [user]).drop 2`); the result
again has `MAX_HISTORY_MESSAGES + 1` entries headed by the system message,
and a further in-bounds append at the ceiling again yields exactly
`MAX_HISTORY_MESSAGES + 1` entries — trimming is idempotent there. -/
theorem ceiling_trim_idempotent (h : List Msg) (u : List Char)
    (hlen : h.length = MAX_HISTORY_MESSAGES + 1)
    (hhead : h.head? = some SYSTEM_PROMPT_MESSAGE)
    (htok : estimate_tokens (h ++ [mkUser u]) ≤ MAX_HISTORY_TOKENS_ESTIMATE)
    (htrim : estimate_tokens (SYSTEM_PROMPT_MESSAGE :: (h ++ [mkUser u]).drop 2)
      ≤ MAX_HISTORY_TOKENS_ESTIMATE) :
    appendAndBound h u = (SYSTEM_PROMPT_MESSAGE :: (h ++ [mkUser u]).drop 2, false)
    ∧ (appendAndBound h u).1.length = MAX_HISTORY_MESSAGES + 1
    ∧ (appendAndBound h u).1.head? = some SYSTEM_PROMPT_MESSAGE
    ∧ ∀ u2 : List Char,
        estimate_tokens ((appendAndBound h u).1 ++ [mkUser u2]) ≤ MAX_HISTORY_TOKENS_ESTIMATE →
        estimate_tokens (SYSTEM_PROMPT_MESSAGE :: ((appendAndBound h u).1 ++ [mkUser u2]).drop 2)
          ≤ MAX_HISTORY_TOKENS_ESTIMATE →
        (appendAndBound (appendAndBound h u).1 u2).1.length = MAX_HISTORY_MESSAGES + 1
        ∧ (appendAndBound (appendAndBound h u).1 u2).1.head? = some SYSTEM_PROMPT_MESSAGE := by
  obtain ⟨halen, hahead⟩ := appendAndBound_ceiling_shape h u hlen hhead htok htrim
  refine ⟨appendAndBound_ceiling h u hlen hhead htok htrim, halen, hahead, ?_⟩
  intro u2 ht1 ht2
  exact appendAndBound_ceiling_shape (appendAndBound h u).1 u2 halen hahead ht1 ht2

/-- C1 witness: a ceiling-length history of short messages, evaluated. -/
theorem ceiling_trim_idempotent_witness :
    (SYSTEM_PROMPT_MESSAGE :: List.replicate 30 (mkUser ['a'])).length = MAX_HISTORY_MESSAGES + 1
    ∧ (SYSTEM_PROMPT_MESSAGE :: List.replicate 30 (mkUser ['a'])).head? = some SYSTEM_PROMPT_MESSAGE
    ∧ estimate_tokens ((SYSTEM_PROMPT_MESSAGE :: List.replicate 30 (mkUser ['a'])) ++ [mkUser ['b']])
        ≤ MAX_HISTORY_TOKENS_ESTIMATE
    ∧ estimate_tokens (SYSTEM_PROMPT_MESSAGE ::
        (((SYSTEM_PROMPT_MESSAGE :: List.replicate 30 (mkUser ['a'])) ++ [mkUser ['b']]).drop 2))
        ≤ MAX_HISTORY_TOKENS_ESTIMATE
    ∧ appendAndBound (SYSTEM_PROMPT_MESSAGE :: List.replicate 30 (mkUser ['a'])) ['b']
        = (SYSTEM_PROMPT_MESSAGE ::
            (((SYSTEM_PROMPT_MESSAGE :: List.replicate 30 (mkUser ['a'])) ++ [mkUser ['b']]).drop 2),
           false) :=
  ⟨by decide, by decide, by decide, by decide,
    (ceiling_trim_idempotent (SYSTEM_PROMPT_MESSAGE :: List.replicate 30 (mkUser ['a'])) ['b']
      (by decide) (by decide) (by decide) (by decide)).1⟩

/-- C2 (amended): when the CANDIDATE (`H` plus the new user message) has a
token estimate within `MAX_HISTORY_TOKENS_ESTIMATE` and at most
`MAX_HISTORY_MESSAGES + 1` entries, `appendAndBound` commits the candidate
unchanged, returns `wasReset = false`, and the message handler does not
emit the reset notice. -/
theorem bounded_commit (H : List Msg) (u : List Char)
    (htok : estimate_tokens (H ++ [mkUser u]) ≤ MAX_HISTORY_TOKENS_ESTIMATE)
    (hlen : (H ++ [mkUser u]).length ≤ MAX_HISTORY_MESSAGES + 1) :
    appendAndBound H u = (H ++ [mkUser u], false)
    ∧ ∀ (lr : Option (List Char)) (oc : Nat → Outcome) (c : Counters),
        (handle_message (some H) u lr oc c).wasReset = false := by
  have e1 : ¬ (MAX_HISTORY_TOKENS_ESTIMATE < estimate_tokens (H ++ [mkUser u])) :=
    Nat.not_lt.mpr htok
  have e2 : ¬ (MAX_HISTORY_MESSAGES + 1 < (H ++ [mkUser u]).length) := Nat.not_lt.mpr hlen
  have hmain : appendAndBound H u = (H ++ [mkUser u], false) := by
    simp only [appendAndBound]
    rw [if_neg e1, if_neg e2]
  refine ⟨hmain, ?_⟩
  intro lr oc c
  cases lr with
  | some canned => simp [handle_message, hmain, finishTurn]
  | none => simp [handle_message, hmain, finishTurn]

/-- C2 counterexample: the seeded history `[SYSTEM_PROMPT_MESSAGE]` meets
both stated bounds (`estimate 138 ≤ 3500`, `1 ≤ 31` entries), yet appending
one 15000-character user message makes `appendAndBound` reset: the claim's
bounds on the PRIOR history do not prevent a reset. -/
theorem bounded_commit_ce :
    estimate_tokens [SYSTEM_PROMPT_MESSAGE] ≤ MAX_HISTORY_TOKENS_ESTIMATE
    ∧ [SYSTEM_PROMPT_MESSAGE].length ≤ MAX_HISTORY_MESSAGES + 1
    ∧ appendAndBound [SYSTEM_PROMPT_MESSAGE] (List.replicate 15000 'a')
        = ([SYSTEM_PROMPT_MESSAGE], true) :=
  ⟨by decide, by decide, bigReset⟩

/-- C2 witness: a small in-bounds append evaluated through `bounded_commit`. -/
theorem bounded_commit_witness :
    estimate_tokens ([SYSTEM_PROMPT_MESSAGE] ++ [mkUser ['h', 'i']]) ≤ MAX_HISTORY_TOKENS_ESTIMATE
    ∧ ([SYSTEM_PROMPT_MESSAGE] ++ [mkUser ['h', 'i']]).length ≤ MAX_HISTORY_MESSAGES + 1
    ∧ appendAndBound [SYSTEM_PROMPT_MESSAGE] ['h', 'i']
        = ([SYSTEM_PROMPT_MESSAGE] ++ [mkUser ['h', 'i']], false)
    ∧ (handle_message (some [SYSTEM_PROMPT_MESSAGE]) ['h', 'i'] (some ['O', 'k'])
        (fun _ => Outcome.timeout) counters0).wasReset = false :=
  ⟨by decide, by decide,
    (bounded_commit [SYSTEM_PROMPT_MESSAGE] ['h', 'i'] (by decide) (by decide)).1,
    (bounded_commit [SYSTEM_PROMPT_MESSAGE] ['h', 'i'] (by decide) (by decide)).2
      (some ['O', 'k']) (fun _ => Outcome.timeout) counters0⟩

lemma inv_seed : SystemInv [SYSTEM_PROMPT_MESSAGE] := ⟨rfl, by simp⟩

lemma inv_append {h : List Msg} (hinv : SystemInv h) {m : Msg}
    (hm : m.role ≠ Role.system) : SystemInv (h ++ [m]) := by
  obtain ⟨hh, htl⟩ := hinv
  cases h with
  | nil => simp at hh
  | cons a t =>
    have ha : a = SYSTEM_PROMPT_MESSAGE := by simpa using hh
    subst ha
    refine ⟨rfl, ?_⟩
    intro x hx
    simp only [List.cons_append, List.tail_cons] at hx
    rcases List.mem_append.mp hx with hx1 | hx2
    · exact htl x hx1
    · rw [List.mem_singleton.mp hx2]
      exact hm

lemma inv_appendAndBound {h : List Msg} (hinv : SystemInv h) (t : List Char) :
    SystemInv (appendAndBound h t).1 := by
  obtain ⟨hh, htl⟩ := hinv
  cases h with
  | nil => simp at hh
  | cons a t0 =>
    have ha : a = SYSTEM_PROMPT_MESSAGE := by simpa using hh
    subst ha
    simp only [appendAndBound]
    by_cases e1 : MAX_HISTORY_TOKENS_ESTIMATE
        < estimate_tokens ((SYSTEM_PROMPT_MESSAGE :: t0) ++ [mkUser t])
    · rw [if_pos e1]
      exact inv_seed
    · rw [if_neg e1]
      by_cases e2 : MAX_HISTORY_MESSAGES + 1 < ((SYSTEM_PROMPT_MESSAGE :: t0) ++ [mkUser t]).length
      · rw [if_pos e2]
        by_cases e3 : MAX_HISTORY_TOKENS_ESTIMATE
            < estimate_tokens (((SYSTEM_PROMPT_MESSAGE :: t0) ++ [mkUser t]).take 1 ++
                ((SYSTEM_PROMPT_MESSAGE :: t0) ++ [mkUser t]).drop
                  (((SYSTEM_PROMPT_MESSAGE :: t0) ++ [mkUser t]).length - MAX_HISTORY_MESSAGES))
        · rw [if_pos e3]
          exact inv_seed
        · rw [if_neg e3]
          have hk : ∃ k, ((SYSTEM_PROMPT_MESSAGE :: t0) ++ [mkUser t]).length
              - MAX_HISTORY_MESSAGES = k + 1 := by
            simp only [List.length_append, List.length_cons, List.length_nil] at e2 ⊢
            exact ⟨((t0.length + 1) + 1) - MAX_HISTORY_MESSAGES - 1, by omega⟩
          obtain ⟨k, hk⟩ := hk
          rw [hk]
          have e5 : ((SYSTEM_PROMPT_MESSAGE :: t0) ++ [mkUser t]).take 1 ++
              ((SYSTEM_PROMPT_MESSAGE :: t0) ++ [mkUser t]).drop (k + 1)
              = SYSTEM_PROMPT_MESSAGE :: (t0 ++ [mkUser t]).drop k := rfl
          rw [e5]
          refine ⟨by simp, ?_⟩
          intro x hx
          simp only [List.tail_cons] at hx
          have hx2 : x ∈ t0 ++ [mkUser t] := List.mem_of_mem_drop hx
          rcases List.mem_append.mp hx2 with hx3 | hx4
          · exact htl x hx3
          · rw [List.mem_singleton.mp hx4]
            simp [mkUser]
      · rw [if_neg e2]
        exact inv_append ⟨by simp, htl⟩ (by simp [mkUser])

lemma inv_finishTurn {pre : List Msg} (hinv : SystemInv pre)
    (rt : List Char) (api : Bool) (sl : List Nat) (c : Counters) :
    SystemInv (finishTurn pre rt api sl c).stored := by
  simp only [finishTurn]
  cases hb : startsWith rt SORRY_SENTINEL with
  | true => simpa [hb] using hinv
  | false =>
    simp only [hb, Bool.not_false, if_pos]
    exact inv_append hinv (by simp [mkAssistant])

/-- C3: every operation on a chat's stored history — seeding on first
message, `appendAndBound` with or without trimming, reset, the assistant
append, and the `/start`, `/restart`, `/clear` commands — preserves the
invariant that a stored history is non-empty, starts with the system
message, and contains the system message exactly once (no other entry has
the system role). -/
theorem history_invariant (stored : Option (List Msg)) (op : Op)
    (hinv : OptInv stored) :
    OptInv (applyOp stored op)
    ∧ ∀ h2, applyOp stored op = some h2 →
        ∃ t, h2 = SYSTEM_PROMPT_MESSAGE :: t ∧ SYSTEM_PROMPT_MESSAGE ∉ t
          ∧ ∀ m ∈ t, m.role ≠ Role.system := by
  have main : OptInv (applyOp stored op) := by
    cases op with
    | startCmd => trivial
    | restartCmd => trivial
    | clearCmd => trivial
    | user t lr oc c =>
      have hhist : SystemInv (stored.getD [SYSTEM_PROMPT_MESSAGE]) := by
        cases stored with
        | none => exact inv_seed
        | some hh => exact hinv
      show SystemInv (handle_message stored t lr oc c).stored
      simp only [handle_message]
      split
      · exact inv_seed
      · cases lr with
        | some canned => exact inv_finishTurn (inv_appendAndBound hhist t) canned false [] c
        | none =>
          exact inv_finishTurn (inv_appendAndBound hhist t) _ true _ _
  refine ⟨main, ?_⟩
  intro h2 hh2
  rw [hh2] at main
  obtain ⟨hh, htl⟩ := main
  cases h2 with
  | nil => simp at hh
  | cons a t =>
    have ha : a = SYSTEM_PROMPT_MESSAGE := by simpa using hh
    subst ha
    refine ⟨t, rfl, ?_, htl⟩
    intro hmem
    exact htl SYSTEM_PROMPT_MESSAGE hmem rfl

/-- C3 witness: the invariant carried through one concrete user-message
operation. -/
theorem history_invariant_witness :
    OptInv (some [SYSTEM_PROMPT_MESSAGE, mkUser ['h']])
    ∧ OptInv (applyOp (some [SYSTEM_PROMPT_MESSAGE, mkUser ['h']])
        (Op.user ['y'] (some ['O', 'k', '.']) (fun _ => Outcome.timeout) counters0)) :=
  ⟨(⟨rfl, by decide⟩ : SystemInv [SYSTEM_PROMPT_MESSAGE, mkUser ['h']]),
    (history_invariant (some [SYSTEM_PROMPT_MESSAGE, mkUser ['h']])
      (Op.user ['y'] (some ['O', 'k', '.']) (fun _ => Outcome.timeout) counters0)
      (⟨rfl, by decide⟩ : SystemInv [SYSTEM_PROMPT_MESSAGE, mkUser ['h']])).1⟩

/-- C4: whenever the bound policy reports a violation (`wasReset`), the
stored history becomes exactly the seed, the fixed reset notice is emitted,
and processing stops: no local classification, no remote call, no assistant
append, counters untouched, no backoff sleeps, and the offending user
message is not stored. -/
theorem reset_halts_processing (stored : Option (List Msg)) (text : List Char)
    (lr : Option (List Char)) (oc : Nat → Outcome) (c : Counters)
    (hres : (appendAndBound (stored.getD [SYSTEM_PROMPT_MESSAGE]) text).2 = true) :
    (handle_message stored text lr oc c).wasReset = true
    ∧ (handle_message stored text lr oc c).stored = [SYSTEM_PROMPT_MESSAGE]
    ∧ (handle_message stored text lr oc c).sent = RESET_NOTICE
    ∧ (handle_message stored text lr oc c).classified = false
    ∧ (handle_message stored text lr oc c).apiCalled = false
    ∧ (handle_message stored text lr oc c).assistantAppended = false
    ∧ (handle_message stored text lr oc c).counters = c
    ∧ (handle_message stored text lr oc c).sleeps = []
    ∧ ∀ m ∈ (handle_message stored text lr oc c).stored, m.role ≠ Role.user := by
  simp only [handle_message, hres, if_true]
  refine ⟨trivial, trivial, trivial, trivial, trivial, trivial, trivial, trivial, ?_⟩
  intro m hm
  have hm2 : m = SYSTEM_PROMPT_MESSAGE := by simpa using hm
  rw [hm2]
  decide

/-- C4 witness: a 15000-character message on a fresh chat triggers the
reset path. -/
theorem reset_halts_processing_witness :
    (appendAndBound ((none : Option (List Msg)).getD [SYSTEM_PROMPT_MESSAGE])
        (List.replicate 15000 'a')).2 = true
    ∧ (handle_message none (List.replicate 15000 'a') none (fun _ => Outcome.timeout)
        counters0).wasReset = true
    ∧ (handle_message none (List.replicate 15000 'a') none (fun _ => Outcome.timeout)
        counters0).stored = [SYSTEM_PROMPT_MESSAGE]
    ∧ (handle_message none (List.replicate 15000 'a') none (fun _ => Outcome.timeout)
        counters0).sent = RESET_NOTICE :=
  ⟨by rw [Option.getD_none, bigReset],
    (reset_halts_processing none (List.replicate 15000 'a') none (fun _ => Outcome.timeout)
      counters0 (by rw [Option.getD_none, bigReset])).1,
    (reset_halts_processing none (List.replicate 15000 'a') none (fun _ => Outcome.timeout)
      counters0 (by rw [Option.getD_none, bigReset])).2.1,
    (reset_halts_processing none (List.replicate 15000 'a') none (fun _ => Outcome.timeout)
      counters0 (by rw [Option.getD_none, bigReset])).2.2.1⟩

lemma retryLoopAux_succ (oc : Nat → Outcome) (c : Counters) (n rc : Nat) :
    retryLoopAux oc c (n + 1) rc =
      (match oc rc with
      | Outcome.ok r =>
        let c' := updateCounters c r.usage
        match r.content with
        | some s => { reply := some s, attempts := 1, sleeps := [], counters := c' }
        | none => { reply := some PARSE_ERROR_MSG, attempts := 1, sleeps := [], counters := c' }
      | Outcome.reqError =>
        { reply := some REQUEST_ERROR_MSG, attempts := 1, sleeps := [], counters := c }
      | Outcome.otherError =>
        { reply := some UNEXPECTED_ERROR_MSG, attempts := 1, sleeps := [], counters := c }
      | Outcome.timeout =>
        match n with
        | 0 => { reply := some TIMEOUT_MSG, attempts := 1, sleeps := [], counters := c }
        | _ + 1 =>
          let rest := retryLoopAux oc c n (rc + 1)
          { reply := rest.reply, attempts := rest.attempts + 1,
            sleeps := 2 ^ (rc + 1) :: rest.sleeps, counters := rest.counters } : CallResult) := rfl

lemma retry_reply_sentinel (oc : Nat → Outcome) (c : Counters)
    (hok : ∀ i r, oc i = Outcome.ok r → r.content = none) :
    ∀ rem rc s, (retryLoopAux oc c rem rc).reply = some s →
      startsWith s SORRY_SENTINEL = true := by
  intro rem
  induction rem with
  | zero =>
    intro rc s h
    simp [retryLoopAux] at h
  | succ n ih =>
    intro rc s h
    rw [retryLoopAux_succ] at h
    cases ho : oc rc with
    | ok r =>
      rw [ho] at h
      simp only [hok rc r ho, Option.some.injEq] at h
      subst h
      decide
    | reqError =>
      rw [ho] at h
      simp only [Option.some.injEq] at h
      subst h
      decide
    | otherError =>
      rw [ho] at h
      simp only [Option.some.injEq] at h
      subst h
      decide
    | timeout =>
      rw [ho] at h
      cases n with
      | zero =>
        simp only [Option.some.injEq] at h
        subst h
        decide
      | succ m =>
        exact ih (rc + 1) s h

/-- C5: the controller appends the reply as an assistant message exactly
when it does not start with the `"Sorry,"` sentinel, and every failure-path
return of the completion client (timeout exhaustion, transport error,
malformed response, unexpected error) starts with that sentinel, so no
fallback string is persisted into conversation context. -/
theorem sentinel_gating :
    (∀ (stored : Option (List Msg)) (text : List Char) (lr : Option (List Char))
        (oc : Nat → Outcome) (c : Counters),
      (handle_message stored text lr oc c).wasReset = false →
      ((handle_message stored text lr oc c).assistantAppended = true ↔
        startsWith (handle_message stored text lr oc c).reply SORRY_SENTINEL = false))
    ∧ (∀ (msgs : List Msg) (oc : Nat → Outcome) (mr : Nat) (c : Counters) (s : List Char),
        1 < msgs.length → (∀ i r, oc i = Outcome.ok r → r.content = none) →
        (get_perplexity_response msgs oc mr c).reply = some s →
        startsWith s SORRY_SENTINEL = true)
    ∧ startsWith TIMEOUT_MSG SORRY_SENTINEL = true
    ∧ startsWith REQUEST_ERROR_MSG SORRY_SENTINEL = true
    ∧ startsWith PARSE_ERROR_MSG SORRY_SENTINEL = true
    ∧ startsWith UNEXPECTED_ERROR_MSG SORRY_SENTINEL = true := by
  refine ⟨?_, ?_, by decide, by decide, by decide, by decide⟩
  · intro stored text lr oc c hw
    revert hw
    simp only [handle_message]
    split
    · intro hw
      simp at hw
    · intro _
      cases lr <;> simp only [finishTurn, Bool.not_eq_true']
  · intro msgs oc mr c s hlen hok h
    rw [get_perplexity_response, if_neg (by omega)] at h
    exact retry_reply_sentinel oc c hok mr 0 s h

/-- C5 witness: a locally-answered turn evaluated through the gating
equivalence. -/
theorem sentinel_gating_witness :
    (handle_message (some [SYSTEM_PROMPT_MESSAGE]) ['h'] (some ['O', 'k'])
        (fun _ => Outcome.timeout) counters0).wasReset = false
    ∧ ((handle_message (some [SYSTEM_PROMPT_MESSAGE]) ['h'] (some ['O', 'k'])
        (fun _ => Outcome.timeout) counters0).assistantAppended = true ↔
      startsWith (handle_message (some [SYSTEM_PROMPT_MESSAGE]) ['h'] (some ['O', 'k'])
        (fun _ => Outcome.timeout) counters0).reply SORRY_SENTINEL = false) :=
  ⟨by decide,
    sentinel_gating.1 (some [SYSTEM_PROMPT_MESSAGE]) ['h'] (some ['O', 'k'])
      (fun _ => Outcome.timeout) counters0 (by decide)⟩

/-- C6 (amended): with a timeout on every attempt the client makes exactly
`MAX_RETRIES = 3` attempts, returns the fixed timeout apology string with
unchanged counters (never an exception), and sleeps `2^1 = 2` then
`2^2 = 4` time units between the attempts — two backoff sleeps, `[2, 4]`,
not the claimed `2, 4, 8`: no sleep follows the final attempt. -/
theorem timeout_backoff (msgs : List Msg) (oc : Nat → Outcome) (c : Counters)
    (hlen : 1 < msgs.length) (ht : ∀ i, oc i = Outcome.timeout) :
    get_perplexity_response msgs oc MAX_RETRIES c
      = { reply := some TIMEOUT_MSG, attempts := 3, sleeps := [2, 4], counters := c } := by
  have h1 : ∀ rc, retryLoopAux oc c 1 rc
      = { reply := some TIMEOUT_MSG, attempts := 1, sleeps := [], counters := c } := by
    intro rc
    rw [retryLoopAux_succ, ht rc]
  have h2 : ∀ rc, retryLoopAux oc c 2 rc
      = { reply := some TIMEOUT_MSG, attempts := 2, sleeps := [2 ^ (rc + 1)], counters := c } := by
    intro rc
    rw [retryLoopAux_succ, ht rc, h1 (rc + 1)]
  have h3 : retryLoopAux oc c 3 0
      = { reply := some TIMEOUT_MSG, attempts := 3, sleeps := [2, 4], counters := c } := by
    rw [retryLoopAux_succ, ht 0, h2 (0 + 1)]
    rfl
  rw [get_perplexity_response, if_neg (by omega)]
  exact h3

/-- C6 counterexample: with every attempt timing out, the source performs
three attempts but only two backoff sleeps, `[2, 4]`; the claimed sleep
sequence `[2, 4, 8]` does not occur. -/
theorem timeout_backoff_ce :
    (get_perplexity_response [SYSTEM_PROMPT_MESSAGE, mkUser ['q']]
        (fun _ => Outcome.timeout) MAX_RETRIES counters0).attempts = 3
    ∧ (get_perplexity_response [SYSTEM_PROMPT_MESSAGE, mkUser ['q']]
        (fun _ => Outcome.timeout) MAX_RETRIES counters0).reply = some TIMEOUT_MSG
    ∧ (get_perplexity_response [SYSTEM_PROMPT_MESSAGE, mkUser ['q']]
        (fun _ => Outcome.timeout) MAX_RETRIES counters0).sleeps = [2, 4]
    ∧ (get_perplexity_response [SYSTEM_PROMPT_MESSAGE, mkUser ['q']]
        (fun _ => Outcome.timeout) MAX_RETRIES counters0).sleeps ≠ [2, 4, 8] :=
  ⟨by decide, by decide, by decide, by decide⟩

/-- C6 witness: `timeout_backoff` evaluated at a concrete history and an
all-timeout environment. -/
theorem timeout_backoff_witness :
    1 < ([SYSTEM_PROMPT_MESSAGE, mkUser ['q']] : List Msg).length
    ∧ get_perplexity_response [SYSTEM_PROMPT_MESSAGE, mkUser ['q']]
        (fun _ => Outcome.timeout) MAX_RETRIES counters0
      = { reply := some TIMEOUT_MSG, attempts := 3, sleeps := [2, 4], counters := counters0 } :=
  ⟨by decide,
    timeout_backoff [SYSTEM_PROMPT_MESSAGE, mkUser ['q']] (fun _ => Outcome.timeout) counters0
      (by decide) (fun _ => rfl)⟩

lemma updateCounters_mono (c : Counters) (u : Option Usage) :
    c.total_requests ≤ (updateCounters c u).total_requests
    ∧ c.total_tokens ≤ (updateCounters c u).total_tokens
    ∧ c.estimated_cost ≤ (updateCounters c u).estimated_cost := by
  cases u with
  | none =>
    refine ⟨by simp [updateCounters], by simp [updateCounters], ?_⟩
    simp only [updateCounters]
    rw [REQUEST_COST]
    norm_num
  | some uu =>
    refine ⟨by simp [updateCounters], by simp [updateCounters], ?_⟩
    simp only [updateCounters]
    rw [REQUEST_COST, TOKEN_COST_PER_MILLION]
    have h0 : (0 : ℚ) ≤ ((uu.prompt_tokens.getD 0 + uu.completion_tokens.getD 0 : Nat) : ℚ)
        / 1000000 * 1 := by positivity
    linarith

lemma retry_counters_mono (oc : Nat → Outcome) (c : Counters) :
    ∀ rem rc,
      c.total_requests ≤ (retryLoopAux oc c rem rc).counters.total_requests
      ∧ c.total_tokens ≤ (retryLoopAux oc c rem rc).counters.total_tokens
      ∧ c.estimated_cost ≤ (retryLoopAux oc c rem rc).counters.estimated_cost := by
  intro rem
  induction rem with
  | zero =>
    intro rc
    simp [retryLoopAux]
  | succ n ih =>
    intro rc
    rw [retryLoopAux_succ]
    cases ho : oc rc with
    | ok r =>
      rcases r with ⟨us, co⟩
      cases co <;> simpa using updateCounters_mono c us
    | reqError => simp
    | otherError => simp
    | timeout =>
      cases n with
      | zero => simp
      | succ m => simpa using ih (rc + 1)

/-- C9: a successful completion reporting `usage = {prompt_tokens := 100,
completion_tokens := 50}` increases `total_requests` by 1, `total_tokens`
by 150 and `estimated_cost` by `REQUEST_COST + 150/1_000_000 ×
TOKEN_COST_PER_MILLION`; with usage unreported, `total_requests` still
increases by 1, `total_tokens` is unchanged and `estimated_cost` increases
by `REQUEST_COST` only; and no counter ever decreases. -/
theorem usage_accounting :
    (∀ (msgs : List Msg) (oc : Nat → Outcome) (c : Counters) (r : ApiResponse) (u : Usage),
      1 < msgs.length → oc 0 = Outcome.ok r → r.usage = some u →
      u.prompt_tokens = some 100 → u.completion_tokens = some 50 →
      (get_perplexity_response msgs oc MAX_RETRIES c).counters.total_requests
          = c.total_requests + 1
      ∧ (get_perplexity_response msgs oc MAX_RETRIES c).counters.total_tokens
          = c.total_tokens + 150
      ∧ (get_perplexity_response msgs oc MAX_RETRIES c).counters.estimated_cost
          = c.estimated_cost + (REQUEST_COST + 150 / 1000000 * TOKEN_COST_PER_MILLION))
    ∧ (∀ (msgs : List Msg) (oc : Nat → Outcome) (c : Counters) (r : ApiResponse),
      1 < msgs.length → oc 0 = Outcome.ok r → r.usage = none →
      (get_perplexity_response msgs oc MAX_RETRIES c).counters.total_requests
          = c.total_requests + 1
      ∧ (get_perplexity_response msgs oc MAX_RETRIES c).counters.total_tokens
          = c.total_tokens
      ∧ (get_perplexity_response msgs oc MAX_RETRIES c).counters.estimated_cost
          = c.estimated_cost + REQUEST_COST)
    ∧ (∀ (msgs : List Msg) (oc : Nat → Outcome) (mr : Nat) (c : Counters),
      c.total_requests ≤ (get_perplexity_response msgs oc mr c).counters.total_requests
      ∧ c.total_tokens ≤ (get_perplexity_response msgs oc mr c).counters.total_tokens
      ∧ c.estimated_cost ≤ (get_perplexity_response msgs oc mr c).counters.estimated_cost) := by
  refine ⟨?_, ?_, ?_⟩
  · intro msgs oc c r u hlen h0 hu hp hc
    rw [get_perplexity_response, if_neg (by omega),
      show MAX_RETRIES = 2 + 1 from rfl, retryLoopAux_succ, h0]
    rcases r with ⟨us, co⟩
    simp only at hu
    subst hu
    cases co <;>
      simp [updateCounters, hp, hc, REQUEST_COST, TOKEN_COST_PER_MILLION]
  · intro msgs oc c r hlen h0 hu
    rw [get_perplexity_response, if_neg (by omega),
      show MAX_RETRIES = 2 + 1 from rfl, retryLoopAux_succ, h0]
    rcases r with ⟨us, co⟩
    simp only at hu
    subst hu
    cases co <;> simp [updateCounters]
  · intro msgs oc mr c
    rw [get_perplexity_response]
    by_cases hl : msgs.length ≤ 1
    · rw [if_pos hl]
      simp
    · rw [if_neg hl]
      exact retry_counters_mono oc c mr 0

/-- C9 witness: the counter deltas evaluated for a concrete successful
response with usage 100 + 50, starting from the zero counters. -/
theorem usage_accounting_witness :
    1 < ([SYSTEM_PROMPT_MESSAGE, mkUser ['q']] : List Msg).length
    ∧ (get_perplexity_response [SYSTEM_PROMPT_MESSAGE, mkUser ['q']]
        (fun _ => Outcome.ok { usage := some { prompt_tokens := some 100, completion_tokens := some 50 },
                               content := some ['o', 'k'] }) MAX_RETRIES counters0).counters.total_requests
      = counters0.total_requests + 1
    ∧ (get_perplexity_response [SYSTEM_PROMPT_MESSAGE, mkUser ['q']]
        (fun _ => Outcome.ok { usage := some { prompt_tokens := some 100, completion_tokens := some 50 },
                               content := some ['o', 'k'] }) MAX_RETRIES counters0).counters.total_tokens
      = counters0.total_tokens + 150
    ∧ (get_perplexity_response [SYSTEM_PROMPT_MESSAGE, mkUser ['q']]
        (fun _ => Outcome.ok { usage := some { prompt_tokens := some 100, completion_tokens := some 50 },
                               content := some ['o', 'k'] }) MAX_RETRIES counters0).counters.estimated_cost
      = counters0.estimated_cost + (REQUEST_COST + 150 / 1000000 * TOKEN_COST_PER_MILLION) :=
  ⟨by decide,
    (usage_accounting.1 [SYSTEM_PROMPT_MESSAGE, mkUser ['q']]
      (fun _ => Outcome.ok { usage := some { prompt_tokens := some 100, completion_tokens := some 50 },
                             content := some ['o', 'k'] }) counters0
      { usage := some { prompt_tokens := some 100, completion_tokens := some 50 },
        content := some ['o', 'k'] }
      { prompt_tokens := some 100, completion_tokens := some 50 }
      (by decide) rfl rfl rfl rfl).1,
    (usage_accounting.1 [SYSTEM_PROMPT_MESSAGE, mkUser ['q']]
      (fun _ => Outcome.ok { usage := some { prompt_tokens := some 100, completion_tokens := some 50 },
                             content := some ['o', 'k'] }) counters0
      { usage := some { prompt_tokens := some 100, completion_tokens := some 50 },
        content := some ['o', 'k'] }
      { prompt_tokens := some 100, completion_tokens := some 50 }
      (by decide) rfl rfl rfl rfl).2.1,
    (usage_accounting.1 [SYSTEM_PROMPT_MESSAGE, mkUser ['q']]
      (fun _ => Outcome.ok { usage := some { prompt_tokens := some 100, completion_tokens := some 50 },
                             content := some ['o', 'k'] }) counters0
      { usage := some { prompt_tokens := some 100, completion_tokens := some 50 },
        content := some ['o', 'k'] }
      { prompt_tokens := some 100, completion_tokens := some 50 }
      (by decide) rfl rfl rfl rfl).2.2⟩

end Alphy
